import Mathlib

/-!
Verification of the wire codec (`src/wire/fromwire.c`) and the bitcoind RPC
driver (`src/lightningd/bitcoind.c`).

The codec works over a cursor: a pointer into a byte buffer plus a remaining
length `max`.  We model the pointer as `Option (List Nat)` holding the bytes
from the current position onward (`none` models the NULL pointer), and `max`
as a `Nat`.  Bytes are `Nat`s (in real runs they are `< 256`; no theorem
below depends on that bound unless stated).
-/

namespace Wire

/-- A decode cursor: `ptr` models `*cursor` (the bytes still reachable from
the current position; `none` is the NULL pointer), `max` models `*max`. -/
structure Cursor where
  ptr : Option (List Nat)
  max : Nat
deriving DecidableEq, Repr

/-- `fromwire_fail`: sets `*cursor` to NULL and `*max` to 0. -/
def fromwire_fail (_ : Cursor) : Cursor := ⟨none, 0⟩

/-- A cursor is well formed when a NULL pointer comes only with `max = 0`
(the only NULL state the code ever creates is the poisoned `(NULL, 0)`). -/
def WFCursor (c : Cursor) : Prop := c.ptr = none → c.max = 0

instance : DecidablePred WFCursor := fun c => by
  unfold WFCursor; infer_instance

/-- Result of the core `fromwire`: `bytes` is the content of the `copy`
destination after the call (zeroed on failure, the copied bytes on success),
`ok` is whether the returned pointer was non-NULL, `cur` the cursor after. -/
structure FWResult where
  bytes : List Nat
  ok : Bool
  cur : Cursor
deriving DecidableEq, Repr

/-- Core `fromwire`: if `*max < n` it zeroes the destination and poisons the
cursor; otherwise it copies `n` bytes and advances cursor and max by `n`.
(The `none` success branch models reading through a NULL pointer, which the
code never does on a well-formed cursor with `n ≥ 1`.) -/
def fromwire (c : Cursor) (n : Nat) : FWResult :=
  if c.max < n then
    ⟨List.replicate n 0, false, fromwire_fail c⟩
  else
    match c.ptr with
    | none => ⟨List.replicate n 0, false, ⟨none, c.max - n⟩⟩
    | some p => ⟨p.take n, true, ⟨some (p.drop n), c.max - n⟩⟩

/-- Big-endian value of a byte list. -/
def bytesToBE (l : List Nat) : Nat := l.foldl (fun a b => a * 256 + b) 0

/-- `fromwire_u8`. -/
def fromwire_u8 (c : Cursor) : Nat × Cursor :=
  let r := fromwire c 1
  if r.ok then (bytesToBE r.bytes, r.cur) else (0, r.cur)

/-- `fromwire_u16` (big-endian). -/
def fromwire_u16 (c : Cursor) : Nat × Cursor :=
  let r := fromwire c 2
  if r.ok then (bytesToBE r.bytes, r.cur) else (0, r.cur)

/-- `fromwire_u32` (big-endian). -/
def fromwire_u32 (c : Cursor) : Nat × Cursor :=
  let r := fromwire c 4
  if r.ok then (bytesToBE r.bytes, r.cur) else (0, r.cur)

/-- `fromwire_u64` (big-endian). -/
def fromwire_u64 (c : Cursor) : Nat × Cursor :=
  let r := fromwire c 8
  if r.ok then (bytesToBE r.bytes, r.cur) else (0, r.cur)

/-- `fromwire_bool`: reads one byte; a byte outside {0,1} additionally
poisons the cursor.  The C return `return ret;` converts the `u8` to `bool`,
so any nonzero byte yields `true`. -/
def fromwire_bool (c : Cursor) : Bool × Cursor :=
  let r := fromwire c 1
  if !r.ok then (false, r.cur)
  else
    let ret := r.bytes.getD 0 0
    if ret ≠ 0 ∧ ret ≠ 1 then (decide (ret ≠ 0), fromwire_fail r.cur)
    else (decide (ret ≠ 0), r.cur)

/-- `fromwire_u8_array` (also the shape of every fixed-width opaque decoder:
`fromwire_sha256`, `fromwire_preimage`, `fromwire_ripemd160`,
`fromwire_channel_id`, `fromwire_secret`: a single `fromwire` of the declared
width into the destination). -/
def fromwire_u8_array (c : Cursor) (num : Nat) : List Nat × Cursor :=
  let r := fromwire c num
  (r.bytes, r.cur)

/-- `fromwire_pubkey`: reads 33 DER bytes then parses them.  The secp256k1
parse (`pubkey_from_der`) is an external library call, modelled by the
parameter `parse`, which maps the DER bytes and the previous out-value to
the new out-value and a success flag.  On a short read the out-value `old`
is left untouched (the early `return`); on parse failure the cursor is
poisoned and the out-value is whatever the parser left. -/
def fromwire_pubkey (parse : List Nat → List Nat → List Nat × Bool)
    (old : List Nat) (c : Cursor) : List Nat × Cursor :=
  let r := fromwire c 33
  if !r.ok then (old, r.cur)
  else
    let pr := parse r.bytes old
    if pr.2 then (pr.1, r.cur) else (pr.1, fromwire_fail r.cur)

/-- `fromwire_secp256k1_ecdsa_signature`: reads 64 compact bytes then parses
via the external library (parameter `parse`, as in `fromwire_pubkey`). -/
def fromwire_secp256k1_ecdsa_signature
    (parse : List Nat → List Nat → List Nat × Bool)
    (old : List Nat) (c : Cursor) : List Nat × Cursor :=
  let r := fromwire c 64
  if !r.ok then (old, r.cur)
  else
    let pr := parse r.bytes old
    if pr.2 then (pr.1, r.cur) else (pr.1, fromwire_fail r.cur)

/-- `fromwire_secp256k1_ecdsa_recoverable_signature`: reads 64 compact bytes,
then a recovery-id byte via `fromwire_u8`, then parses via the external
recoverable-compact parser (parameter `parse` over compact bytes, recid and
previous out-value). -/
def fromwire_recoverable_sig
    (parse : List Nat → Nat → List Nat → List Nat × Bool)
    (old : List Nat) (c : Cursor) : List Nat × Cursor :=
  let r := fromwire c 64
  let rec_pair := fromwire_u8 r.cur
  let pr := parse r.bytes rec_pair.1 old
  if pr.2 then (pr.1, rec_pair.2) else (pr.1, fromwire_fail rec_pair.2)

/-- `fromwire_peektype`: reads a BE u16 from the start of a tal byte array
(its length is `tal_count`) through a throwaway cursor; returns -1 when the
cursor was poisoned (array shorter than 2 bytes). -/
def fromwire_peektype (buf : List Nat) : Int :=
  let c : Cursor := ⟨some buf, buf.length⟩
  let r := fromwire c 2
  if r.cur.ptr = none then -1 else (bytesToBE r.bytes : Int)

/-- A short channel id: 24-bit block number, 24-bit tx number, 16-bit output
number. -/
structure ShortChannelId where
  blocknum : Nat
  txnum : Nat
  outnum : Nat
deriving DecidableEq, Repr

/-- `fromwire_short_channel_id`: pulls 3 big-endian bytes into the low three
bytes of a zeroed 32-bit big-endian word for each 24-bit field (so the field
value is the BE value of the 3 bytes, and 0 when the read failed and memset
the destination), then a BE u16 for the output number. -/
def fromwire_short_channel_id (c : Cursor) : ShortChannelId × Cursor :=
  let r1 := fromwire c 3
  let blocknum := bytesToBE r1.bytes
  let r2 := fromwire r1.cur 3
  let txnum := bytesToBE r2.bytes
  let p3 := fromwire_u16 r2.cur
  (⟨blocknum, txnum, p3.1⟩, p3.2)

/-- `derive_channel_id`: copy the 32-byte txid (modelled as an index
function on `Fin 32`), then XOR the high byte of the 16-bit `txout` into
byte 30 and its low byte into byte 31 (the stores are into `u8` slots,
hence the `% 256`). -/
def derive_channel_id (txid : Fin 32 → Nat) (txout : Nat) : Fin 32 → Nat :=
  Function.update
    (Function.update txid 30 ((txid 30) ^^^ (txout / 256 % 256)))
    31 ((txid 31) ^^^ (txout % 256))

end Wire

/-!
The RPC driver (`src/lightningd/bitcoind.c`).  We model the mutable driver
state (`struct bitcoind`), a request (`struct bitcoin_cli`) by the fields
the claims observe, and `bcli_finished` as a function from the state, the
request, the `waitpid` outcome and the current monotonic time (in seconds,
as a rational) to a result record describing the state afterwards and which
effects ran.  `fatal` aborts the process, so on a fatal result the remaining
fields describe the state at the abort point.
-/

namespace Bitcoind

/-- The driver state fields the claims observe (`struct bitcoind`). -/
structure State where
  error_count : Nat
  first_error_time : ℚ
  req_running : Bool
  shutdown : Bool
deriving DecidableEq, Repr

/-- How the reaped child terminated (decoded from `waitpid`'s status):
`exited code` is `WIFEXITED` with `WEXITSTATUS = code`, `signaled sig` is
death by signal `sig`. -/
inductive ChildStatus where
  | exited (code : Nat)
  | signaled (sig : Nat)
deriving DecidableEq, Repr

/-- The processing-function slot of a request: either the caller's real
processing function (which invokes the user callback) or
`process_donothing`. -/
inductive ProcFn where
  | donothing
  | user
deriving DecidableEq, Repr

/-- Whether a processing function invokes the user callback. -/
def ProcFn.callsCb : ProcFn → Bool
  | .donothing => false
  | .user => true

/-- A pending request, by the fields the claims observe
(`struct bitcoin_cli`): the processing-function slot, whether a live
stopper (cancellation anchor child) exists, and whether an `exitstatus`
capture slot was allocated (`nonzero_exit_ok`). -/
structure BcliReq where
  process : ProcFn
  hasStopper : Bool
  capture : Bool
deriving DecidableEq, Repr

/-- `start_bitcoin_cli`: builds the request; a non-NULL `ctx` allocates a
stopper whose destructor will replace `process`, and `nonzero_exit_ok`
allocates the `exitstatus` slot. -/
def start_bitcoin_cli (hasAnchor : Bool) (process : ProcFn)
    (nonzero_exit_ok : Bool) : BcliReq :=
  ⟨process, hasAnchor, nonzero_exit_ok⟩

/-- `stop_process_bcli`: the stopper's destructor replaces the processing
function with `process_donothing` and clears the stopper link. -/
def stop_process_bcli (b : BcliReq) : BcliReq :=
  { b with process := .donothing, hasStopper := false }

/-- Destroying the caller's anchor runs `stop_process_bcli` when the request
still has a live stopper, and does nothing otherwise. -/
def destroy_anchor (b : BcliReq) : BcliReq :=
  if b.hasStopper then stop_process_bcli b else b

/-- What a run of `bcli_finished` did: whether the child was reaped
(`waitpid`), whether `fatal` aborted, the driver state afterwards, what was
written to the `exitstatus` capture slot, whether the nonzero-exit log line
was emitted, whether the database transaction bracket ran, whether the
processing function was invoked and whether it invoked the user callback,
and whether `next_bcli` advanced the queue. -/
structure FinishResult where
  reaped : Bool
  fatal : Bool
  state : State
  wroteExitstatus : Option Nat
  logged : Bool
  dbBracket : Bool
  processRan : Bool
  userCbFired : Bool
  advancedQueue : Bool
deriving DecidableEq, Repr

/-- `bcli_finished`: reap the child; death by signal is fatal.  Without a
capture slot, a nonzero exit is logged, `first_error_time` is recorded when
the streak begins, a streak older than 60 seconds is fatal, and
`error_count` is incremented; with a capture slot the exit status is stored
unmodified.  Any zero exit resets `error_count`.  `req_running` is cleared.
If `shutdown` is set, the database bracket, the processing function and the
queue advance are skipped. -/
def bcli_finished (st : State) (req : BcliReq) (child : ChildStatus)
    (t : ℚ) : FinishResult :=
  match child with
  | .signaled _ =>
      ⟨true, true, st, none, false, false, false, false, false⟩
  | .exited code =>
      if req.capture = false ∧ code ≠ 0 then
        let fet := if st.error_count = 0 then t else st.first_error_time
        let st1 : State := { st with first_error_time := fet }
        if t - fet > 60 then
          ⟨true, true, st1, none, true, false, false, false, false⟩
        else
          let st2 : State :=
            { st1 with error_count := st.error_count + 1,
                       req_running := false }
          if st.shutdown then
            ⟨true, false, st2, none, true, false, false, false, false⟩
          else
            ⟨true, false, st2, none, true, true, true,
             req.process.callsCb, true⟩
      else
        let wrote : Option Nat := if req.capture then some code else none
        let st2 : State :=
          { st with error_count := if code = 0 then 0 else st.error_count,
                    req_running := false }
        if st.shutdown then
          ⟨true, false, st2, wrote, false, false, false, false, false⟩
        else
          ⟨true, false, st2, wrote, false, true, true,
           req.process.callsCb, true⟩

/-- `process_sendrawtx`: hands the captured exit status and the first
`output_bytes` characters of the output buffer (`tal_strndup`) to the user
callback. -/
def process_sendrawtx (exitstatus : Nat) (output : List Char)
    (output_bytes : Nat) : Nat × List Char :=
  (exitstatus, output.take output_bytes)

/-- Outcome of `process_getblockhash`: a `fatal` abort, or the user callback
invoked with an optional block id (`none` models the NULL block id). -/
inductive GBHOut where
  | fatalAbort
  | callback (blkid : Option (List Nat))
deriving DecidableEq, Repr

/-- `process_getblockhash`: a nonzero captured exit status invokes the
callback with a NULL block id; otherwise empty output or a failed hex parse
of the first `output_bytes - 1` characters (the external
`bitcoin_blkid_from_hex`, parameter `parse`) is fatal, and a parsed id is
handed to the callback. -/
def process_getblockhash (exitstatus : Nat) (output : List Char)
    (output_bytes : Nat)
    (parse : List Char → Nat → Option (List Nat)) : GBHOut :=
  if exitstatus ≠ 0 then .callback none
  else if output_bytes = 0 then .fatalAbort
  else
    match parse output (output_bytes - 1) with
    | none => .fatalAbort
    | some b => .callback (some b)

/-- `extract_feerate` on a well-formed JSON object response, modelled as the
list of top-level (member name, parsed number) pairs produced by the
external token parser: `json_get_member` finds the first `feerate` member
(`none` when absent, making `extract_feerate` return false). -/
def extract_feerate (resp : List (String × ℚ)) : Option ℚ :=
  (resp.find? (fun kv => kv.1 == "feerate")).map (fun kv => kv.2)

/-- One entry of `process_estimatefee`: when `extract_feerate` fails the
entry is 0 and a log line is emitted; otherwise the entry is
`feerate * 100000000 / 4` computed on doubles and converted to `u32`, which
truncates toward zero — the floor, for the nonnegative feerates bitcoind
reports.  Doubles are modelled as exact rationals.  Returns
(satoshi_per_kw entry, logged). -/
def process_estimatefee_entry (resp : List (String × ℚ)) : Nat × Bool :=
  match extract_feerate resp with
  | none => (0, true)
  | some f => ((⌊f * 100000000 / 4⌋).toNat, false)

end Bitcoind

open Wire Bitcoind

/-! Helper lemmas. -/

theorem fromwire_ok {p : List Nat} {m n : Nat} (h : n ≤ m) :
    fromwire ⟨some p, m⟩ n = ⟨p.take n, true, ⟨some (p.drop n), m - n⟩⟩ := by
  simp [fromwire, Nat.not_lt.2 h]

theorem fromwire_poison {po : Option (List Nat)} {m n : Nat} (h : m < n) :
    fromwire ⟨po, m⟩ n = ⟨List.replicate n 0, false, ⟨none, 0⟩⟩ := by
  simp [fromwire, h, fromwire_fail]

/-! Claim theorems. -/

/-- Claim C9: `fromwire_peektype` returns -1 when the slice is shorter than
2 bytes, and otherwise returns the big-endian u16 formed by the first two
bytes; being a pure function of the slice, it does not mutate it and repeated
calls agree. -/
theorem C9_peektype (buf : List Nat) :
    (buf.length < 2 → fromwire_peektype buf = -1) ∧
    (2 ≤ buf.length →
      fromwire_peektype buf = (buf.getD 0 0 * 256 + buf.getD 1 0 : Nat)) := by
  constructor
  · intro h
    have e := @fromwire_poison (some buf) buf.length 2 h
    simp [fromwire_peektype, e]
  · intro h
    match buf, h with
    | a :: b :: rest, _ =>
      have e := @fromwire_ok (a :: b :: rest) (a :: b :: rest).length 2
        (by simp)
      simp only [fromwire_peektype]
      rw [e]
      simp [bytesToBE]

/-- Claim C9 witness: the slice `AB CD 09` peeks as `0xABCD`, and the
one-byte slice yields the sentinel -1. -/
theorem C9_peektype_witness :
    fromwire_peektype [171, 205, 9] = 43981 ∧
    fromwire_peektype [171] = -1 := by
  refine ⟨?_, ?_⟩
  · have h := (C9_peektype [171, 205, 9]).2 (by decide)
    simpa using h
  · exact (C9_peektype [171]).1 (by decide)

/-- Claim C7: decoding a short channel id consumes exactly 8 bytes — the
first 3 are the big-endian block number, the next 3 the big-endian tx
number, the last 2 the big-endian output number — and the bytes
`00 00 01 00 00 02 00 03` decode to (block=1, tx=2, out=3). -/
theorem C7_short_channel_id (p : List Nat) (m : Nat) (h : 8 ≤ m) :
    fromwire_short_channel_id ⟨some p, m⟩ =
      (⟨bytesToBE (p.take 3), bytesToBE ((p.drop 3).take 3),
        bytesToBE ((p.drop 6).take 2)⟩,
       ⟨some (p.drop 8), m - 8⟩) ∧
    fromwire_short_channel_id ⟨some [0, 0, 1, 0, 0, 2, 0, 3], 8⟩ =
      (⟨1, 2, 3⟩, ⟨some [], 0⟩) := by
  constructor
  · have e1 := @fromwire_ok p m 3 (by omega)
    have e2 := @fromwire_ok (p.drop 3) (m - 3) 3 (by omega)
    have e3 := @fromwire_ok (p.drop 6) (m - 6) 2 (by omega)
    have hdd : List.drop 3 (List.drop 3 p) = List.drop 6 p := by
      rw [List.drop_drop]
    have hm : m - 3 - 3 = m - 6 := by omega
    simp only [fromwire_short_channel_id, fromwire_u16, e1, e2, hdd, hm, e3]
    simp [List.drop_drop]
    omega
  · decide

/-- Claim C7 witness: the general decode shape applied to the concrete
byte string of the claim. -/
theorem C7_short_channel_id_witness :
    fromwire_short_channel_id ⟨some [0, 0, 1, 0, 0, 2, 0, 3], 8⟩ =
      (⟨1, 2, 3⟩, ⟨some [], 0⟩) :=
  (C7_short_channel_id [0, 0, 1, 0, 0, 2, 0, 3] 8 (by decide)).2

/-- Claim C8: against the poisoned cursor (NULL, 0), every decode of width
at least one byte is a no-op that reports failure: the cursor stays
poisoned, nothing advances, and the destination of the `fromwire` read is
zeroed (for the pubkey/signature decoders that destination is their local
DER/compact buffer; they return early leaving the caller's out-value
unchanged); poisoning twice equals poisoning once. -/
theorem C8_poisoned_noop :
    (∀ n, 1 ≤ n →
      fromwire ⟨none, 0⟩ n = ⟨List.replicate n 0, false, ⟨none, 0⟩⟩) ∧
    fromwire_u8 ⟨none, 0⟩ = (0, ⟨none, 0⟩) ∧
    fromwire_u16 ⟨none, 0⟩ = (0, ⟨none, 0⟩) ∧
    fromwire_u32 ⟨none, 0⟩ = (0, ⟨none, 0⟩) ∧
    fromwire_u64 ⟨none, 0⟩ = (0, ⟨none, 0⟩) ∧
    fromwire_bool ⟨none, 0⟩ = (false, ⟨none, 0⟩) ∧
    (∀ n, 1 ≤ n →
      fromwire_u8_array ⟨none, 0⟩ n = (List.replicate n 0, ⟨none, 0⟩)) ∧
    (∀ parse old, fromwire_pubkey parse old ⟨none, 0⟩ = (old, ⟨none, 0⟩)) ∧
    (∀ parse old,
      fromwire_secp256k1_ecdsa_signature parse old ⟨none, 0⟩ =
        (old, ⟨none, 0⟩)) ∧
    (∀ parse old,
      (fromwire_recoverable_sig parse old ⟨none, 0⟩).2 = ⟨none, 0⟩) ∧
    (∀ c, fromwire_fail (fromwire_fail c) = fromwire_fail c) := by
  have hp1 := @fromwire_poison none 0 1 (by omega)
  refine ⟨?_, ?_, ?_, ?_, ?_, ?_, ?_, ?_, ?_, ?_, ?_⟩
  · intro n hn
    exact @fromwire_poison none 0 n hn
  · decide
  · decide
  · decide
  · decide
  · decide
  · intro n hn
    simp [fromwire_u8_array, @fromwire_poison none 0 n hn]
  · intro parse old
    simp [fromwire_pubkey, @fromwire_poison none 0 33 (by omega)]
  · intro parse old
    simp [fromwire_secp256k1_ecdsa_signature,
      @fromwire_poison none 0 64 (by omega)]
  · intro parse old
    cases hok : (parse (List.replicate 64 0) 0 old).2 <;>
      simp [fromwire_recoverable_sig, @fromwire_poison none 0 64 (by omega),
        fromwire_u8, hp1, hok, fromwire_fail]
  · intro c
    rfl

/-- Claim C8 witness: the quantified pieces at width 1 and at a concrete
parser. -/
theorem C8_poisoned_noop_witness :
    fromwire ⟨none, 0⟩ 1 = ⟨[0], false, ⟨none, 0⟩⟩ ∧
    fromwire_u8_array ⟨none, 0⟩ 2 = ([0, 0], ⟨none, 0⟩) ∧
    fromwire_pubkey (fun der _ => (der, true)) [7] ⟨none, 0⟩ =
      ([7], ⟨none, 0⟩) := by
  obtain ⟨h1, _, _, _, _, _, h7, h8, _⟩ := C8_poisoned_noop
  exact ⟨by simpa using h1 1 (by decide), by simpa using h7 2 (by decide),
    h8 (fun der _ => (der, true)) [7]⟩

/-- Claim C6: `derive_channel_id` with a zero output index is the identity
on the txid, and in general the result agrees with the txid everywhere
except that byte 30 is XORed with the high byte of the 16-bit `txout` and
byte 31 with its low byte. -/
theorem C6_derive_channel_id (txid : Fin 32 → Nat) (n : Nat)
    (hn : n < 65536) :
    derive_channel_id txid 0 = txid ∧
    (∀ i : Fin 32, derive_channel_id txid n i =
      (txid i) ^^^
        (if i = 30 then n / 256 else if i = 31 then n % 256 else 0)) := by
  have hd : n / 256 % 256 = n / 256 := Nat.mod_eq_of_lt (by omega)
  constructor
  · funext i
    by_cases h31 : i = 31
    · subst h31
      simp [derive_channel_id, Function.update_apply, Nat.xor_zero]
    · by_cases h30 : i = 30
      · subst h30
        simp [derive_channel_id, Function.update_apply, h31, Nat.xor_zero]
      · simp [derive_channel_id, Function.update_apply, h30, h31]
  · intro i
    by_cases h31 : i = 31
    · subst h31
      simp [derive_channel_id, Function.update_apply]
    · by_cases h30 : i = 30
      · subst h30
        simp [derive_channel_id, Function.update_apply, h31, hd]
      · simp [derive_channel_id, Function.update_apply, h30, h31,
          Nat.xor_zero]

/-- Claim C6 witness: identity at txout 0 and the XOR shape at txout
`0x0102` for the txid whose byte i is i. -/
theorem C6_derive_channel_id_witness :
    derive_channel_id (fun i => (i : Nat) : Fin 32 → Nat) 0 =
      (fun i => (i : Nat) : Fin 32 → Nat) ∧
    derive_channel_id (fun i => (i : Nat) : Fin 32 → Nat) 258 31 =
      (31 ^^^ 2 : Nat) := by
  have h := C6_derive_channel_id (fun i => (i : Nat) : Fin 32 → Nat) 258
    (by decide)
  refine ⟨(C6_derive_channel_id (fun i => (i : Nat) : Fin 32 → Nat) 0
    (by decide)).1, ?_⟩
  have h2 := h.2 31
  simpa using h2

/-- Claim C1 counterexample: `fromwire_bool` on the single byte `02` ends
with the cursor poisoned — not advanced by its declared width of 1 (which
would be the cursor `(some [], 0)`) — while its out-value is `true`, not
zeroed.  So the claimed dichotomy fails at this input. -/
theorem C1_counterexample :
    fromwire_bool ⟨some [2], 1⟩ = (true, ⟨none, 0⟩) ∧
    ¬((fromwire_bool ⟨some [2], 1⟩).2 = ⟨some [], 0⟩ ∨
      ((fromwire_bool ⟨some [2], 1⟩).2 = ⟨none, 0⟩ ∧
       (fromwire_bool ⟨some [2], 1⟩).1 = false)) := by
  decide

/-- Claim C1 (amended): the plain fixed-width decoders (u8/u16/u32/u64 and
the fixed-width array/opaque decoders) either advance the cursor by exactly
their declared width and populate the out-value with the bytes read, or
poison the cursor and zero the out-value.  `fromwire_bool` and the
pubkey/signature decoders obey that dichotomy for their fixed-width read,
but on a validation failure they poison the cursor after the advance, with
the out-value as validation produced it: `fromwire_bool` returns `true` for
any nonzero byte, and the pubkey/signature decoders leave the out-value
untouched on a short read and as the library parser wrote it on a parse
failure. -/
theorem C1_decode_dichotomy (p : List Nat) (m : Nat) :
    (1 ≤ m → fromwire_u8 ⟨some p, m⟩ =
      (bytesToBE (p.take 1), ⟨some (p.drop 1), m - 1⟩)) ∧
    (m < 1 → fromwire_u8 ⟨some p, m⟩ = (0, ⟨none, 0⟩)) ∧
    (2 ≤ m → fromwire_u16 ⟨some p, m⟩ =
      (bytesToBE (p.take 2), ⟨some (p.drop 2), m - 2⟩)) ∧
    (m < 2 → fromwire_u16 ⟨some p, m⟩ = (0, ⟨none, 0⟩)) ∧
    (4 ≤ m → fromwire_u32 ⟨some p, m⟩ =
      (bytesToBE (p.take 4), ⟨some (p.drop 4), m - 4⟩)) ∧
    (m < 4 → fromwire_u32 ⟨some p, m⟩ = (0, ⟨none, 0⟩)) ∧
    (8 ≤ m → fromwire_u64 ⟨some p, m⟩ =
      (bytesToBE (p.take 8), ⟨some (p.drop 8), m - 8⟩)) ∧
    (m < 8 → fromwire_u64 ⟨some p, m⟩ = (0, ⟨none, 0⟩)) ∧
    (∀ n, n ≤ m → fromwire_u8_array ⟨some p, m⟩ n =
      (p.take n, ⟨some (p.drop n), m - n⟩)) ∧
    (∀ n, m < n → fromwire_u8_array ⟨some p, m⟩ n =
      (List.replicate n 0, ⟨none, 0⟩)) ∧
    (1 ≤ m → p.getD 0 0 ≤ 1 → fromwire_bool ⟨some p, m⟩ =
      (decide (p.getD 0 0 = 1), ⟨some (p.drop 1), m - 1⟩)) ∧
    (1 ≤ m → 2 ≤ p.getD 0 0 → fromwire_bool ⟨some p, m⟩ =
      (true, ⟨none, 0⟩)) ∧
    (m < 1 → fromwire_bool ⟨some p, m⟩ = (false, ⟨none, 0⟩)) ∧
    (∀ parse old, 33 ≤ m → fromwire_pubkey parse old ⟨some p, m⟩ =
      ((parse (p.take 33) old).1,
       if (parse (p.take 33) old).2 then (⟨some (p.drop 33), m - 33⟩ : Cursor)
       else ⟨none, 0⟩)) ∧
    (∀ parse old, m < 33 →
      fromwire_pubkey parse old ⟨some p, m⟩ = (old, ⟨none, 0⟩)) ∧
    (∀ parse old, 64 ≤ m →
      fromwire_secp256k1_ecdsa_signature parse old ⟨some p, m⟩ =
      ((parse (p.take 64) old).1,
       if (parse (p.take 64) old).2 then (⟨some (p.drop 64), m - 64⟩ : Cursor)
       else ⟨none, 0⟩)) ∧
    (∀ parse old, m < 64 →
      fromwire_secp256k1_ecdsa_signature parse old ⟨some p, m⟩ =
        (old, ⟨none, 0⟩)) ∧
    (∀ parse old, 65 ≤ m →
      fromwire_recoverable_sig parse old ⟨some p, m⟩ =
      ((parse (p.take 64) (bytesToBE ((p.drop 64).take 1)) old).1,
       if (parse (p.take 64) (bytesToBE ((p.drop 64).take 1)) old).2 then
         (⟨some (p.drop 65), m - 65⟩ : Cursor)
       else ⟨none, 0⟩)) ∧
    (∀ parse old, m < 64 →
      fromwire_recoverable_sig parse old ⟨some p, m⟩ =
        ((parse (List.replicate 64 0) 0 old).1, ⟨none, 0⟩)) := by
  refine ⟨?_, ?_, ?_, ?_, ?_, ?_, ?_, ?_, ?_, ?_, ?_, ?_, ?_, ?_, ?_, ?_,
    ?_, ?_, ?_⟩
  · intro h; simp [fromwire_u8, fromwire_ok h]
  · intro h; simp [fromwire_u8, fromwire_poison h]
  · intro h; simp [fromwire_u16, fromwire_ok h]
  · intro h; simp [fromwire_u16, fromwire_poison h]
  · intro h; simp [fromwire_u32, fromwire_ok h]
  · intro h; simp [fromwire_u32, fromwire_poison h]
  · intro h; simp [fromwire_u64, fromwire_ok h]
  · intro h; simp [fromwire_u64, fromwire_poison h]
  · intro n h; simp [fromwire_u8_array, fromwire_ok h]
  · intro n h; simp [fromwire_u8_array, fromwire_poison h]
  · intro h hb
    cases p with
    | nil => simp [fromwire_bool, fromwire_ok h]
    | cons a rest =>
      simp only [List.getD_cons_zero] at hb ⊢
      have hend : a = 0 ∨ a = 1 := by omega
      rcases hend with h0 | h0 <;> subst h0 <;>
        simp [fromwire_bool, fromwire_ok h]
  · intro h hb
    cases p with
    | nil => simp at hb
    | cons a rest =>
      simp only [List.getD_cons_zero] at hb
      have h0 : a ≠ 0 := by omega
      have h1 : a ≠ 1 := by omega
      simp [fromwire_bool, fromwire_ok h, h0, h1, fromwire_fail]
  · intro h; simp [fromwire_bool, fromwire_poison h]
  · intro parse old h
    cases hok : (parse (p.take 33) old).2 <;>
      simp [fromwire_pubkey, fromwire_ok h, hok, fromwire_fail]
  · intro parse old h
    simp [fromwire_pubkey, fromwire_poison h]
  · intro parse old h
    cases hok : (parse (p.take 64) old).2 <;>
      simp [fromwire_secp256k1_ecdsa_signature, fromwire_ok h, hok,
        fromwire_fail]
  · intro parse old h
    simp [fromwire_secp256k1_ecdsa_signature, fromwire_poison h]
  · intro parse old h
    have e1 := @fromwire_ok p m 64 (by omega)
    have e2 := @fromwire_ok (p.drop 64) (m - 64) 1 (by omega)
    have hdd : List.drop 1 (List.drop 64 p) = List.drop 65 p := by
      rw [List.drop_drop]
    have hm : m - 64 - 1 = m - 65 := by omega
    cases hok : (parse (p.take 64) (bytesToBE ((p.drop 64).take 1)) old).2 <;>
      simp [fromwire_recoverable_sig, fromwire_u8, e1, e2, hdd, hm, hok,
        fromwire_fail]
  · intro parse old h
    have e2 := @fromwire_poison none 0 1 (by omega)
    cases hok : (parse (List.replicate 64 0) 0 old).2 <;>
      simp [fromwire_recoverable_sig, fromwire_u8, fromwire_poison h, e2,
        hok, fromwire_fail]

/-- Claim C1 witness: the amended dichotomy evaluated at concrete inputs —
a successful u16 read, a short u16 read, a valid and an invalid boolean
byte, and a short pubkey read. -/
theorem C1_decode_dichotomy_witness :
    fromwire_u16 ⟨some [171, 205, 9], 3⟩ = (43981, ⟨some [9], 1⟩) ∧
    fromwire_u16 ⟨some [171], 1⟩ = (0, ⟨none, 0⟩) ∧
    fromwire_bool ⟨some [1, 7], 2⟩ = (true, ⟨some [7], 1⟩) ∧
    fromwire_bool ⟨some [2], 1⟩ = (true, ⟨none, 0⟩) ∧
    fromwire_pubkey (fun der _ => (der, true)) [7] ⟨some [5], 1⟩ =
      ([7], ⟨none, 0⟩) := by
  obtain ⟨_, _, h3, h4, _, _, _, _, _, _, h11, h12, _, _, h15, _⟩ :=
    C1_decode_dichotomy [171, 205, 9] 3
  obtain ⟨_, _, _, g4, _⟩ := C1_decode_dichotomy [171] 1
  obtain ⟨_, _, _, _, _, _, _, _, _, _, k11, _⟩ := C1_decode_dichotomy [1, 7] 2
  obtain ⟨_, _, _, _, _, _, _, _, _, _, _, l12, _⟩ := C1_decode_dichotomy [2] 1
  obtain ⟨_, _, _, _, _, _, _, _, _, _, _, _, _, _, m15, _⟩ :=
    C1_decode_dichotomy [5] 1
  refine ⟨?_, ?_, ?_, ?_, ?_⟩
  · have := h3 (by decide)
    simpa using this
  · have := g4 (by decide)
    simpa using this
  · have := k11 (by decide) (by decide)
    simpa using this
  · have := l12 (by decide) (by decide)
    simpa using this
  · have := m15 (fun der _ => (der, true)) [7] (by decide)
    simpa using this


/-- Claim C2: for a request without exit-status capture finishing with an
exited child, a nonzero exit is logged and records `first_error_time` when
the streak begins (and otherwise keeps it), the run is fatal iff the exit
is nonzero and strictly more than 60 seconds of monotonic time have passed
since the streak's first error, a surviving nonzero exit increments
`error_count`, and a zero exit resets `error_count` to 0. -/
theorem C2_error_streak (st : State) (proc : ProcFn) (hs : Bool)
    (code : Nat) (t : ℚ) :
    ((bcli_finished st ⟨proc, hs, false⟩ (.exited code) t).fatal = true ↔
      (code ≠ 0 ∧
        t - (if st.error_count = 0 then t else st.first_error_time) > 60)) ∧
    (code ≠ 0 →
      (bcli_finished st ⟨proc, hs, false⟩ (.exited code) t).logged = true ∧
      (bcli_finished st ⟨proc, hs, false⟩
          (.exited code) t).state.first_error_time =
        (if st.error_count = 0 then t else st.first_error_time) ∧
      ((bcli_finished st ⟨proc, hs, false⟩ (.exited code) t).fatal = false →
        (bcli_finished st ⟨proc, hs, false⟩
            (.exited code) t).state.error_count = st.error_count + 1)) ∧
    (code = 0 →
      (bcli_finished st ⟨proc, hs, false⟩
          (.exited code) t).state.error_count = 0) := by
  by_cases hc : code = 0
  · subst hc
    simp only [bcli_finished]
    by_cases hsh : st.shutdown <;> simp [hsh]
  · simp only [bcli_finished]
    by_cases ht :
        t - (if st.error_count = 0 then t else st.first_error_time) > 60
    · simp [hc, ht]
    · by_cases hsh : st.shutdown <;> simp [hc, ht, hsh]

/-- Claim C2 witness: a three-error streak 61 seconds old aborts on the next
nonzero exit, and a zero exit resets a streak of five errors. -/
theorem C2_error_streak_witness :
    (bcli_finished ⟨3, 0, true, false⟩ ⟨.user, false, false⟩
        (.exited 1) 61).fatal = true ∧
    (bcli_finished ⟨5, 0, true, false⟩ ⟨.user, false, false⟩
        (.exited 0) 61).state.error_count = 0 := by
  constructor
  · exact (C2_error_streak ⟨3, 0, true, false⟩ .user false 1 61).1.mpr
      ⟨by decide, by norm_num⟩
  · exact (C2_error_streak ⟨5, 0, true, false⟩ .user false 0 61).2.2 rfl

/-- Claim C10: with the shutdown flag set, `bcli_finished` still reaps the
child, still treats death by signal as fatal, performs exactly the same
error-streak accounting, exit-status capture, logging and fatal-abort
decision as it would without shutdown, and clears `req_running`; only the
database bracket, the processing callback and the queue advance are
suppressed. -/
theorem C10_shutdown_still_reaps (st : State) (req : BcliReq)
    (child : ChildStatus) (t : ℚ) (h : st.shutdown = true) :
    (bcli_finished st req child t).reaped = true ∧
    (∀ sig, child = .signaled sig →
      (bcli_finished st req child t).fatal = true) ∧
    (bcli_finished st req child t).fatal =
      (bcli_finished { st with shutdown := false } req child t).fatal ∧
    (bcli_finished st req child t).state.error_count =
      (bcli_finished { st with shutdown := false }
        req child t).state.error_count ∧
    (bcli_finished st req child t).state.first_error_time =
      (bcli_finished { st with shutdown := false }
        req child t).state.first_error_time ∧
    (bcli_finished st req child t).wroteExitstatus =
      (bcli_finished { st with shutdown := false } req child t).wroteExitstatus ∧
    (bcli_finished st req child t).logged =
      (bcli_finished { st with shutdown := false } req child t).logged ∧
    ((bcli_finished st req child t).fatal = false →
      (bcli_finished st req child t).state.req_running = false) ∧
    (bcli_finished st req child t).dbBracket = false ∧
    (bcli_finished st req child t).processRan = false ∧
    (bcli_finished st req child t).advancedQueue = false := by
  cases child with
  | signaled s => simp [bcli_finished]
  | exited code =>
    simp only [bcli_finished]
    split_ifs <;> simp_all

/-- Claim C10 witness: a concrete shutdown-time finish of a nonzero exit. -/
theorem C10_shutdown_still_reaps_witness :
    (bcli_finished ⟨0, 0, true, true⟩ ⟨.user, false, false⟩
        (.exited 3) 10).reaped = true ∧
    (bcli_finished ⟨0, 0, true, true⟩ ⟨.user, false, false⟩
        (.exited 3) 10).processRan = false := by
  have h := C10_shutdown_still_reaps ⟨0, 0, true, true⟩ ⟨.user, false, false⟩
    (.exited 3) 10 rfl
  exact ⟨h.1, h.2.2.2.2.2.2.2.2.2.1⟩

/-- Claim C3: when a request's cancellation anchor is destroyed before the
child exits, the processing slot becomes `process_donothing`, the child is
still reaped and the finish performs the same state effects (streak
accounting, capture, fatal decision) as with the anchor alive, but the user
callback never fires; a request created without an anchor is unaffected by
anchor destruction and, on a normal (non-shutdown, non-fatal) exit, its
callback fires. -/
theorem C3_anchor_cancellation (st : State) (proc : ProcFn) (cap : Bool)
    (code : Nat) (t : ℚ) :
    (destroy_anchor (start_bitcoin_cli true proc cap)).process =
      .donothing ∧
    (bcli_finished st (destroy_anchor (start_bitcoin_cli true proc cap))
        (.exited code) t).reaped = true ∧
    (bcli_finished st (destroy_anchor (start_bitcoin_cli true proc cap))
        (.exited code) t).userCbFired = false ∧
    (bcli_finished st (destroy_anchor (start_bitcoin_cli true proc cap))
        (.exited code) t).state =
      (bcli_finished st (start_bitcoin_cli true proc cap)
        (.exited code) t).state ∧
    (bcli_finished st (destroy_anchor (start_bitcoin_cli true proc cap))
        (.exited code) t).fatal =
      (bcli_finished st (start_bitcoin_cli true proc cap)
        (.exited code) t).fatal ∧
    (bcli_finished st (destroy_anchor (start_bitcoin_cli true proc cap))
        (.exited code) t).wroteExitstatus =
      (bcli_finished st (start_bitcoin_cli true proc cap)
        (.exited code) t).wroteExitstatus ∧
    destroy_anchor (start_bitcoin_cli false .user cap) =
      start_bitcoin_cli false .user cap ∧
    (st.shutdown = false →
      (bcli_finished st (start_bitcoin_cli false .user cap)
          (.exited code) t).fatal = false →
      (bcli_finished st (start_bitcoin_cli false .user cap)
          (.exited code) t).userCbFired = true) := by
  have hd : destroy_anchor (start_bitcoin_cli true proc cap) =
      ⟨.donothing, false, cap⟩ := rfl
  have hd2 : destroy_anchor (start_bitcoin_cli false .user cap) =
      start_bitcoin_cli false .user cap := rfl
  rw [hd, hd2]
  refine ⟨rfl, ?_, ?_, ?_, ?_, ?_, rfl, ?_⟩
  · simp only [bcli_finished]
    split_ifs <;> simp_all
  · simp only [bcli_finished]
    split_ifs <;> simp_all [ProcFn.callsCb]
  · simp only [start_bitcoin_cli, bcli_finished]
    split_ifs <;> simp_all
  · simp only [start_bitcoin_cli, bcli_finished]
    split_ifs <;> simp_all
  · simp only [start_bitcoin_cli, bcli_finished]
    split_ifs <;> simp_all
  · intro hsh hf
    simp only [start_bitcoin_cli, bcli_finished] at hf ⊢
    split_ifs at hf ⊢ <;> simp_all [ProcFn.callsCb]

/-- Claim C3 witness: a destroyed anchor suppresses the callback of a
request whose child exits 0 at a quiet driver, while the anchorless request
sees its callback fire. -/
theorem C3_anchor_cancellation_witness :
    (bcli_finished ⟨0, 0, true, false⟩
        (destroy_anchor (start_bitcoin_cli true .user false))
        (.exited 0) 5).userCbFired = false ∧
    (bcli_finished ⟨0, 0, true, false⟩ (start_bitcoin_cli false .user false)
        (.exited 0) 5).userCbFired = true := by
  have h := C3_anchor_cancellation ⟨0, 0, true, false⟩ .user false 0 5
  exact ⟨h.2.2.1, h.2.2.2.2.2.2.2 rfl (by decide)⟩

/-- Claim C5: with exit-status capture requested, `bcli_finished` is never
fatal for an exited child, stores the exit status unmodified for the user
callback, and a nonzero exit neither logs nor advances the error streak;
`process_sendrawtx` hands (exit status, raw stdout text) to its callback,
and `process_getblockhash` on a nonzero exit status hands the callback a
NULL block id. -/
theorem C5_capture_passthrough (st : State) (proc : ProcFn) (hs : Bool)
    (code : Nat) (t : ℚ) :
    (bcli_finished st ⟨proc, hs, true⟩ (.exited code) t).fatal = false ∧
    (bcli_finished st ⟨proc, hs, true⟩ (.exited code) t).wroteExitstatus =
      some code ∧
    (code ≠ 0 →
      (bcli_finished st ⟨proc, hs, true⟩ (.exited code) t).state.error_count =
        st.error_count ∧
      (bcli_finished st ⟨proc, hs, true⟩
          (.exited code) t).state.first_error_time = st.first_error_time ∧
      (bcli_finished st ⟨proc, hs, true⟩ (.exited code) t).logged = false) ∧
    (∀ es out nb, process_sendrawtx es out nb = (es, out.take nb)) ∧
    (∀ es out nb parse, es ≠ 0 →
      process_getblockhash es out nb parse = .callback none) := by
  refine ⟨?_, ?_, ?_, ?_, ?_⟩
  · simp only [bcli_finished]
    split_ifs <;> simp_all
  · simp only [bcli_finished]
    split_ifs <;> simp_all
  · intro hc
    simp only [bcli_finished]
    split_ifs <;> simp_all
  · intro es out nb
    rfl
  · intro es out nb parse h
    simp [process_getblockhash, h]

/-- Claim C5 witness: the spec's scenarios — send_rawtx exiting 25 with
stdout "bad tx", and get_block_hash whose CLI exits 8. -/
theorem C5_capture_passthrough_witness :
    (bcli_finished ⟨2, 0, true, false⟩ ⟨.user, false, true⟩
        (.exited 8) 99).state.error_count = 2 ∧
    process_sendrawtx 25 "bad tx".data 6 = (25, "bad tx".data) ∧
    process_getblockhash 8 "".data 0 (fun _ _ => none) = .callback none := by
  have h := C5_capture_passthrough ⟨2, 0, true, false⟩ .user false 8 99
  refine ⟨(h.2.2.1 (by decide)).1, ?_, ?_⟩
  · have h4 := h.2.2.2.1 25 "bad tx".data 6
    simpa using h4
  · exact h.2.2.2.2 8 "".data 0 (fun _ _ => none) (by decide)

/-- Claim C4 counterexample: for the response `{"feerate": 2^-25}` (a value
an IEEE double represents and computes with exactly), the code stores
`u32(feerate * 100000000 / 4)`, which truncates 0.745… to 0, while the
claimed `round(feerate × 10^8 / 4)` is 1. -/
theorem C4_counterexample :
    (process_estimatefee_entry [("feerate", (1 : ℚ)/33554432)]).1 = 0 ∧
    round ((1 : ℚ)/33554432 * 100000000 / 4) = 1 ∧
    ¬(((process_estimatefee_entry [("feerate", (1 : ℚ)/33554432)]).1 : ℤ) =
      round ((1 : ℚ)/33554432 * 100000000 / 4)) := by
  have he : extract_feerate [("feerate", (1 : ℚ)/33554432)] =
      some ((1 : ℚ)/33554432) := rfl
  have hq : (1 : ℚ)/33554432 * 100000000 / 4 = 390625/524288 := by norm_num
  have hfl : ⌊(390625 : ℚ)/524288⌋ = 0 := by
    rw [Int.floor_eq_zero_iff]
    simp only [Set.mem_Ico]
    constructor <;> norm_num
  have hrd : round ((390625 : ℚ)/524288) = 1 := by
    rw [round_eq]
    have hh : (390625 : ℚ)/524288 + 1/2 = 652769/524288 := by norm_num
    rw [hh, Int.floor_eq_iff]
    · constructor <;> norm_num
  have he2 : (process_estimatefee_entry [("feerate", (1 : ℚ)/33554432)]).1
      = 0 := by
    simp only [process_estimatefee_entry, he, hq, hfl]
    rfl
  refine ⟨he2, ?_, ?_⟩
  · rw [hq, hrd]
  · rw [he2, hq, hrd]
    decide

/-- Claim C4 (amended): when the JSON response has no top-level `feerate`
member the entry is set to 0 and logged; otherwise (for the nonnegative
rates bitcoind reports) the entry is the truncation toward zero of
`feerate × 10^8 / 4` — the unique integer e with e ≤ feerate × 10^8 / 4 <
e + 1 — not the rounded value. -/
theorem C4_estimatefee_trunc (resp : List (String × ℚ)) :
    (extract_feerate resp = none →
      process_estimatefee_entry resp = (0, true)) ∧
    (∀ f : ℚ, extract_feerate resp = some f → 0 ≤ f →
      (process_estimatefee_entry resp).2 = false ∧
      ((process_estimatefee_entry resp).1 : ℚ) ≤ f * 100000000 / 4 ∧
      f * 100000000 / 4 < (process_estimatefee_entry resp).1 + 1) := by
  constructor
  · intro h
    simp [process_estimatefee_entry, h]
  · intro f hf hpos
    simp only [process_estimatefee_entry, hf]
    have h1 : (0 : ℚ) ≤ f * 100000000 / 4 := by positivity
    have h2 : (0 : ℤ) ≤ ⌊f * 100000000 / 4⌋ := Int.floor_nonneg.mpr h1
    have h5 : ((⌊f * 100000000 / 4⌋.toNat : ℤ)) = ⌊f * 100000000 / 4⌋ :=
      Int.toNat_of_nonneg h2
    refine ⟨by simp, ?_, ?_⟩
    · have h6 : ((⌊f * 100000000 / 4⌋ : ℚ)) ≤ f * 100000000 / 4 :=
        Int.floor_le _
      rw [← h5] at h6
      exact_mod_cast h6
    · have h7 : f * 100000000 / 4 < ((⌊f * 100000000 / 4⌋ : ℚ)) + 1 :=
        Int.lt_floor_add_one _
      rw [← h5] at h7
      exact_mod_cast h7

/-- Claim C4 witness: the missing-feerate entry, and the truncation bounds
at feerate 2. -/
theorem C4_estimatefee_trunc_witness :
    process_estimatefee_entry [] = (0, true) ∧
    ((process_estimatefee_entry [("feerate", (2 : ℚ))]).1 : ℚ) ≤
      2 * 100000000 / 4 ∧
    (2 : ℚ) * 100000000 / 4 <
      (process_estimatefee_entry [("feerate", (2 : ℚ))]).1 + 1 := by
  have h := (C4_estimatefee_trunc [("feerate", (2 : ℚ))]).2 2 (by decide)
    (by norm_num)
  exact ⟨(C4_estimatefee_trunc []).1 rfl, h.2.1, h.2.2⟩
